import Mathlib

/-!
Shallow embedding of the `lokidata` package (file `src/lokidata/__init__.py`):
the TMD/DAT/LOG field registries, the converters, the line parsers
`_parse_tmd_line` / `_parse_dat_line`, the file readers `read_tmd`,
`read_dat`, `read_log`, and the directory discovery `find_data_roots`.

Python strings are embedded as `List Char`; Python text files are embedded
as their decoding results under each encoding the code may try (a decoding
either fails or yields the list of lines, each line keeping its trailing
newline, as iterating a Python file object does).  Python `dict` built from
a stream of key/value pairs is embedded as an insertion-ordered association
list with in-place overwrite (`pyDict`).  A raised exception is embedded as
the `Except.error` case carrying the exception kind and the list of notes
attached via `_add_note`.
-/

namespace Lokidata

/-- `List Char` stands for a Python `str`. -/
abbrev Chars := List Char

/-- Python `line.rstrip("\n")`: remove every trailing newline character. -/
def rstripNl (s : Chars) : Chars :=
  (s.reverse.dropWhile (fun c => c = '\n')).reverse

/-- Python `s.strip()` restricted to ASCII whitespace: used to embed the
whitespace tolerance of `int()` and `float()`. -/
def stripSpaces (s : Chars) : Chars :=
  ((s.dropWhile Char.isWhitespace).reverse.dropWhile Char.isWhitespace).reverse

/-- Python `s.split(d, 1)` viewed through tuple unpacking `a, b = ...`:
`none` when the delimiter does not occur (the unpacking raises), otherwise
the parts before and after the first occurrence. -/
def splitOnce (d : Char) : Chars → Option (Chars × Chars)
  | [] => none
  | c :: cs =>
    if c = d then some ([], cs)
    else (splitOnce d cs).map (fun p => (c :: p.1, p.2))

/-- Python `s.split(d)` with no limit: always at least one part, empty
parts kept (`"".split(d) = [""]`). -/
def pySplitAll (d : Char) : Chars → List Chars
  | [] => [[]]
  | c :: cs =>
    match pySplitAll d cs with
    | [] => [[]]
    | r :: rs => if c = d then [] :: r :: rs else (c :: r) :: rs

/-- Numeric value of a digit run (caller guarantees all characters are
ASCII digits). -/
def digitsToNat (s : Chars) : Nat :=
  s.foldl (fun a c => 10 * a + (c.toNat - 48)) 0

/-- Predicate for a nonempty all-digit run. -/
def allDigits (s : Chars) : Bool :=
  !s.isEmpty && s.all Char.isDigit

/-- Embedding of Python `int(s)` on ASCII input: surrounding whitespace,
an optional sign, then a nonempty base-10 digit run; `none` when `int`
raises `ValueError`. -/
def pyInt (s : Chars) : Option Int :=
  match stripSpaces s with
  | '+' :: ds => if allDigits ds then some (digitsToNat ds) else none
  | '-' :: ds => if allDigits ds then some (-(digitsToNat ds : Int)) else none
  | ds => if allDigits ds then some (digitsToNat ds) else none

/-- Embedding of Python `float(s)` on plain decimal literals (the only
shape the data files use): surrounding whitespace, an optional sign,
digits with at most one point and at least one digit overall.  The value
is kept exact as a rational; `none` when `float` raises `ValueError`. -/
def pyFloat (s : Chars) : Option ℚ :=
  let t := stripSpaces s
  let signed : Int × Chars :=
    match t with
    | '+' :: r => (1, r)
    | '-' :: r => (-1, r)
    | r => (1, r)
  match splitOnce '.' signed.2 with
  | none =>
    if allDigits signed.2 then some (mkRat (signed.1 * digitsToNat signed.2) 1) else none
  | some (a, b) =>
    if (!a.isEmpty || !b.isEmpty) && a.all Char.isDigit && b.all Char.isDigit then
      some (mkRat (signed.1 * (digitsToNat a * 10 ^ b.length + digitsToNat b))
        (10 ^ b.length))
    else none

/-- The values a parsed field can carry: raw strings (converter `None`),
floats (NaN separate, since NaN compares reflexively here unlike IEEE),
integers, dates and times. -/
inductive Value where
  | str (s : Chars)
  | float (q : ℚ)
  | nan
  | int (n : Int)
  | date (y m d : Nat)
  | time (h m : Nat) (s : ℚ)
deriving DecidableEq, Repr

/-- `german_float`: replace `,` by `.`, parse as float, and on failure
return NaN instead of raising. -/
def german_float (s : Chars) : Value :=
  match pyFloat (s.map (fun c => if c = ',' then '.' else c)) with
  | some q => Value.float q
  | none => Value.nan

/-- Day count of a month, as validated by `datetime.date` inside
`strptime`. -/
def daysInMonth (y m : Nat) : Nat :=
  if m = 2 then
    if y % 4 = 0 && (y % 100 ≠ 0 || y % 400 = 0) then 29 else 28
  else if m = 4 || m = 6 || m = 9 || m = 11 then 30
  else 31

/-- Embedding of `german_date`: `strptime(s, "%d.%m.%Y").date()` — day,
month, year separated by points, validated as a calendar date; `none`
when `strptime` raises. -/
def german_date (s : Chars) : Option Value :=
  match pySplitAll '.' s with
  | [ds, ms, ys] =>
    if allDigits ds && allDigits ms && allDigits ys then
      let d := digitsToNat ds
      let m := digitsToNat ms
      let y := digitsToNat ys
      if 1 ≤ m && m ≤ 12 && 1 ≤ d && d ≤ daysInMonth y m && 1 ≤ y && y ≤ 9999 then
        some (Value.date y m d)
      else none
    else none
  | _ => none

/-- Embedding of `datetime.time.fromisoformat` on the `HH:MM[:SS]` shapes
the log files use; `none` when it raises. -/
def iso_time (s : Chars) : Option Value :=
  match pySplitAll ':' s with
  | [hs, ms] =>
    if hs.length = 2 && ms.length = 2 && allDigits hs && allDigits ms then
      let h := digitsToNat hs
      let m := digitsToNat ms
      if h ≤ 23 && m ≤ 59 then some (Value.time h m 0) else none
    else none
  | [hs, ms, ss] =>
    if hs.length = 2 && ms.length = 2 && ss.length = 2
        && allDigits hs && allDigits ms && allDigits ss then
      let h := digitsToNat hs
      let m := digitsToNat ms
      let sec := digitsToNat ss
      if h ≤ 23 && m ≤ 59 && sec ≤ 59 then some (Value.time h m (sec : ℚ))
      else none
    else none
  | _ => none

/-- The converter functions that appear in the three registries. -/
inductive Converter where
  | germanFloat
  | strictFloat
  | strictInt
  | germanDate
  | isoTime
deriving DecidableEq, Repr

/-- Apply a converter to a raw value; `none` embeds "the converter
raised".  `german_float` is total (NaN policy). -/
def applyConverter : Converter → Chars → Option Value
  | .germanFloat, s => some (german_float s)
  | .strictFloat, s => (pyFloat s).map Value.float
  | .strictInt, s => (pyInt s).map Value.int
  | .germanDate, s => german_date s
  | .isoTime, s => iso_time s

/-- A field registry: the Python dicts `TMD_FIELDS` / `DAT_FIELDS` /
`LOG_FIELDS`, embedded as association lists from the integer code to
(canonical name, optional converter).  Keys are unique in all three. -/
abbrev Registry := List (Int × String × Option Converter)

def TMD_FIELDS : Registry := [
  (1, "DEVICE", none),
  (5, "GPS_LON", some .germanFloat),
  (6, "GPS_LAT", some .germanFloat),
  (10, "PRESS", some .germanFloat),
  (11, "TEMP", some .germanFloat),
  (20, "OXY_CON", some .germanFloat),
  (21, "OXY_SAT", some .germanFloat),
  (22, "OXY_TEMP", some .germanFloat),
  (30, "COND_COND", some .germanFloat),
  (31, "COND_TEMP", some .germanFloat),
  (32, "COND_SALY", some .germanFloat),
  (33, "COND_DENS", some .germanFloat),
  (34, "COND_SSPEED", some .germanFloat),
  (40, "FLOUR_1", some .germanFloat),
  (41, "FLOUR_CR", some .germanFloat),
  (42, "FLOUR_CV", some .germanFloat),
  (43, "FLOUR_TR", some .germanFloat),
  (44, "FLOUR_TD", some .germanFloat),
  (200, "ROLL", some .germanFloat),
  (201, "PITCH", some .germanFloat),
  (202, "NICK", some .germanFloat),
  (230, "LOKI_REC", none),
  (231, "LOKI_PIC", some .strictInt),
  (232, "LOKI_FRAME", some .germanFloat),
  (235, "CAM_STAT", none),
  (240, "HOUSE_STAT", none),
  (241, "HOUSE_T1", some .germanFloat),
  (242, "HOUSE_T2", some .germanFloat),
  (243, "HOUSE_VOLT", some .germanFloat)]

def DAT_FIELDS : Registry := [
  (1, "FW_REV", none),
  (2, "COND_SSPEED", some .strictFloat),
  (3, "COND_DENS", some .strictFloat),
  (4, "COND_TEMP", some .strictFloat),
  (5, "COND_COND", some .strictFloat),
  (6, "COND_SALY", some .strictFloat),
  (7, "OXY_CON", some .strictFloat),
  (8, "OXY_SAT", some .strictFloat),
  (9, "OXY_TEMP", some .strictFloat),
  (10, "HOUSE_T1", some .strictFloat),
  (11, "HOUSE_VOLT", some .strictFloat),
  (16, "FLOUR_1", some .strictFloat),
  (17, "UNKNOWN", none),
  (18, "UNKNOWN", none),
  (19, "UNKNOWN", none),
  (20, "PRESS", some .strictFloat),
  (21, "TEMP", some .strictFloat),
  (22, "UNKNOWN", none),
  (23, "LOKI_REC", none),
  (24, "LOKI_PIC", none),
  (25, "LOKI_FRAME", none),
  (26, "GPS_LAT", some .strictFloat),
  (27, "GPS_LON", some .strictFloat)]

def LOG_FIELDS : Registry := [
  (1, "DATE", some .germanDate),
  (2, "TIME", some .isoTime),
  (3, "PICTURE#", some .strictInt),
  (4, "DEVICE", none),
  (5, "LOKI", none),
  (6, "FW_REV", none),
  (7, "SW_REV", none),
  (8, "CRUISE", none),
  (9, "STATION", none),
  (10, "STATION_NR", none),
  (11, "HAUL", none),
  (12, "USER", none),
  (13, "SHIP", none),
  (14, "SHIP_PORT", none),
  (15, "SHIP_STAT", none),
  (16, "SHIP_AFF", none),
  (17, "GPS_SRC", none),
  (18, "FIX_LON", some .germanFloat),
  (19, "FIX_LAT", some .germanFloat),
  (20, "TEMP_INDEX", none),
  (61, "ERROR", none),
  (62, "WAKEUP", none),
  (63, "STOP_DATE", some .germanDate),
  (64, "STOP_TIME", some .isoTime)]

/-- The exception kinds the embedded code can raise.  `unpackError` and
`intParseError` are both `ValueError` in Python; they are kept apart here
because they arise at different program points (tuple unpacking inside the
first `try`, versus `int(idx)` outside it). -/
inductive ErrKind where
  | unpackError
  | intParseError (s : Chars)
  | keyError (code : Int)
  | convError (name : String) (raw : Chars)
  | encodingError (guesses : List String)
  | decodeError
  | remapKeyError (key : String)
deriving DecidableEq, Repr

/-- A raised exception: its kind plus the notes attached by `_add_note`
(in attachment order). -/
structure PyErr where
  kind : ErrKind
  notes : List String
deriving DecidableEq, Repr

/-- Notes carried by a result; `[]` for a success. -/
def notesOf : Except PyErr (String × Value) → List String
  | .error e => e.notes
  | .ok _ => []

/-- `Bool`-valued test that a computation raised. -/
def isError {α : Type} : Except PyErr α → Bool
  | .error _ => true
  | .ok _ => false

instance {ε α : Type} [DecidableEq ε] [DecidableEq α] : DecidableEq (Except ε α) :=
  fun a b =>
    match a, b with
    | .error e, .error e2 =>
      if h : e = e2 then .isTrue (by rw [h])
      else .isFalse (fun hh => h (Except.noConfusion hh id))
    | .ok x, .ok y =>
      if h : x = y then .isTrue (by rw [h])
      else .isFalse (fun hh => h (Except.noConfusion hh id))
    | .error _, .ok _ => .isFalse (fun hh => Except.noConfusion hh)
    | .ok _, .error _ => .isFalse (fun hh => Except.noConfusion hh)

/-- Embedding of `_parse_tmd_line(line, fields)`:
strip trailing newlines, split on the first `;` (unpacking failure is
caught, annotated with the offending line and re-raised), parse the code
with `int` and look it up (both outside that `try`, so neither failure
carries the line note), then apply the converter, annotating a conversion
failure with the field name. -/
def parse_tmd_line (line : Chars) (fields : Registry) : Except PyErr (String × Value) :=
  match splitOnce ';' (rstripNl line) with
  | none => .error ⟨.unpackError, ["Offending line: " ++ line.asString]⟩
  | some (idx, value) =>
    match pyInt idx with
    | none => .error ⟨.intParseError idx, []⟩
    | some code =>
      match List.lookup code fields with
      | none => .error ⟨.keyError code, []⟩
      | some (name, none) => .ok (name, .str value)
      | some (name, some conv) =>
        match applyConverter conv value with
        | some v => .ok (name, v)
        | none => .error ⟨.convError name value, ["Field " ++ name]⟩

/-- Embedding of `_parse_dat_line(idx, line, fields)`: strip trailing
newlines from the raw cell, look up the positional code, apply the
converter, annotating a conversion failure with the field name. -/
def parse_dat_line (idx : Int) (line : Chars) (fields : Registry) : Except PyErr (String × Value) :=
  let value := rstripNl line
  match List.lookup idx fields with
  | none => .error ⟨.keyError idx, []⟩
  | some (name, none) => .ok (name, .str value)
  | some (name, some conv) =>
    match applyConverter conv value with
    | some v => .ok (name, v)
    | none => .error ⟨.convError name value, ["Field " ++ name]⟩

/-- A parsed record: Python `dict` as an insertion-ordered association
list. -/
abbrev Record := List (String × Value)

/-- One `dict` insertion: overwrite in place when the key exists, append
otherwise. -/
def pyDictInsert (d : Record) (k : String) (v : Value) : Record :=
  if d.any (fun p => p.1 == k) then
    d.map (fun p => if p.1 = k then (k, v) else p)
  else d ++ [(k, v)]

/-- Python `dict(pairs)`. -/
def pyDict (ps : List (String × Value)) : Record :=
  ps.foldl (fun d p => pyDictInsert d p.1 p.2) []

/-- Lazily consume a generator of fallible pairs, stopping at the first
raised exception — the evaluation order of `dict(generator)`. -/
def mapE {α β : Type} (g : α → Except PyErr β) : List α → Except PyErr (List β)
  | [] => .ok []
  | a :: as =>
    match g a with
    | .error e => .error e
    | .ok b => (mapE g as).map (fun bs => b :: bs)

/-- `dict(_parse_tmd_line(l, fields) for l in f)` on decoded lines. -/
def parseAll (fields : Registry) (lines : List Chars) : Except PyErr Record :=
  (mapE (fun l => parse_tmd_line l fields) lines).map pyDict

/-- A text file, embedded by its decoding results.  `utf8` is the line
list the file yields under UTF-8 (also the default encoding of a bare
`open()`), `win1252` the one under Windows-1252, each `none` when that
decoding raises `UnicodeDecodeError`; `guesses` is the rendering of
`chardet.detect_all` on the raw bytes. -/
structure PyFile where
  utf8 : Option (List Chars)
  win1252 : Option (List Chars)
  guesses : List String
deriving Repr

/-- Embedding of `read_tmd(fn)`: try UTF-8 then Windows-1252, catching
only `UnicodeDecodeError`; if both decodings fail, raise `ValueError`
with the chardet guesses.  Parse errors propagate uncaught. -/
def read_tmd (f : PyFile) : Except PyErr Record :=
  match f.utf8 with
  | some ls => parseAll TMD_FIELDS ls
  | none =>
    match f.win1252 with
    | some ls => parseAll TMD_FIELDS ls
    | none => .error ⟨.encodingError f.guesses, []⟩

/-- Embedding of `read_dat(fn)`: a bare `open()` (default encoding), read
the first line only, split it on tabs, and parse each 1-indexed cell whose
position is in `DAT_FIELDS`. -/
def read_dat (f : PyFile) : Except PyErr Record :=
  match f.utf8 with
  | none => .error ⟨.decodeError, []⟩
  | some ls =>
    let contents := ls.headD []
    let cells := pySplitAll '\t' contents
    (mapE (fun p => parse_dat_line p.1 p.2 DAT_FIELDS)
        (((List.range cells.length).zip cells).filterMap
          (fun p => if (List.lookup ((p.1 : Int) + 1) DAT_FIELDS).isSome
            then some ((p.1 : Int) + 1, p.2) else none))).map pyDict

/-- The remap comprehension `{ke: data[kl] for ke, kl in remap_fields.items()}`:
a missing internal key raises `KeyError`. -/
def applyRemap (rm : List (String × String)) (data : Record) : Except PyErr Record :=
  (mapE (fun p =>
    match List.lookup p.2 data with
    | some v => .ok (p.1, v)
    | none => .error ⟨.remapKeyError p.2, []⟩) rm).map pyDict

/-- Embedding of `read_log(fn, remap_fields)`: a bare `open()` (default
encoding, no fallback), parse every line against `LOG_FIELDS`, then apply
the optional remap to the assembled record. -/
def read_log (f : PyFile) (remap_fields : Option (List (String × String))) :
    Except PyErr Record :=
  match f.utf8 with
  | none => .error ⟨.decodeError, []⟩
  | some ls =>
    match parseAll LOG_FIELDS ls with
    | .error e => .error e
    | .ok data =>
      match remap_fields with
      | none => .ok data
      | some rm => applyRemap rm data

/-- A directory tree: the children are the subdirectories, each with its
name.  Plain files are not modelled, since `find_data_roots` filters them
out with `p.is_dir()` before every use. -/
inductive DirTree where
  | mk (subs : List (String × DirTree))
deriving Repr

/-- The subdirectory list of a node. -/
def DirTree.subs : DirTree → List (String × DirTree)
  | .mk s => s

/-- `fnmatch` on one path component, with the wildcards the project's
ignore patterns use: `*` (any run) and `?` (any single character); other
characters match literally. -/
def fnmatchChars : Chars → Chars → Bool
  | [], s => s.isEmpty
  | '*' :: ps, s => s.tails.any (fun t => fnmatchChars ps t)
  | '?' :: ps, s =>
    match s with
    | [] => false
    | _ :: cs => fnmatchChars ps cs
  | p :: ps, s =>
    match s with
    | [] => false
    | c :: cs => p = c && fnmatchChars ps cs

/-- A directory path, as its list of components from the walk's root. -/
abbrev Path := List String

/-- Embedding of `pathlib.PurePath.match(pat)` for a relative glob
pattern: split the pattern on `/` and match its components against the
trailing components of the path, right-aligned. -/
def pathMatch (path : Path) (pat : String) : Bool :=
  let pcs := pySplitAll '/' pat.data
  decide (pcs.length ≤ path.length) &&
    ((path.drop (path.length - pcs.length)).zip pcs).all
      (fun p => fnmatchChars p.2 p.1.data)

/-- `ignore_patterns is not None and any(project_root.match(pat) ...)`. -/
def matchesIgnore (pats : Option (List String)) (path : Path) : Bool :=
  match pats with
  | none => false
  | some ps => ps.any (fun pat => pathMatch path pat)

mutual
/-- Embedding of `find_data_roots(project_root, ignore_patterns)`, the
current directory given by its path and its tree: stop at an ignored
path before enumerating anything; yield the directory itself when both a
`Pictures` and a `Telemetrie` child exist; otherwise recurse into every
child.  The generator is embedded as the list of yielded paths. -/
def find_data_roots (pats : Option (List String)) (path : Path) : DirTree → List Path
  | .mk subs =>
    if matchesIgnore pats path then []
    else if subs.any (fun p => p.1 == "Pictures")
        && subs.any (fun p => p.1 == "Telemetrie") then [path]
    else findRootsList pats path subs

/-- The `for subdir in subdirs: yield from ...` loop. -/
def findRootsList (pats : Option (List String)) (path : Path) :
    List (String × DirTree) → List Path
  | [] => []
  | (n, t) :: rest =>
    find_data_roots pats (path ++ [n]) t ++ findRootsList pats path rest
end

/-! Helper lemmas about the string primitives. -/

lemma rstripNl_append_cons (a v : Chars) :
    rstripNl (a ++ ';' :: v) = a ++ ';' :: rstripNl v := by
  simp only [rstripNl, List.reverse_append, List.reverse_cons, List.append_assoc,
    List.nil_append, List.dropWhile_append]
  split
  · next h =>
    rw [List.isEmpty_iff] at h
    rw [h]
    simp [List.dropWhile_cons]
  · next h =>
    rw [List.isEmpty_iff] at h
    simp [List.dropWhile_cons, List.reverse_append]

lemma splitOnce_before_first (cs v : Chars) (h : ';' ∉ cs) :
    splitOnce ';' (cs ++ ';' :: v) = some (cs, v) := by
  induction cs with
  | nil => simp [splitOnce]
  | cons c cs ih =>
    simp only [List.mem_cons, not_or] at h
    simp [splitOnce, Ne.symm h.1, ih h.2]

lemma isError_map {α β : Type} (g : α → β) (e : Except PyErr α) :
    isError (e.map g) = isError e := by
  cases e <;> rfl

lemma mapE_isError_of_mem {α β : Type} (g : α → Except PyErr β) (ls : List α) (l : α)
    (hmem : l ∈ ls) (hbad : isError (g l) = true) : isError (mapE g ls) = true := by
  induction ls with
  | nil => cases hmem
  | cons a as ih =>
    rw [List.mem_cons] at hmem
    rcases hmem with rfl | hmem
    · rw [mapE]
      cases hga : g l
      · rfl
      · rw [hga] at hbad
        simp [isError] at hbad
    · rw [mapE]
      cases hga : g a
      · rfl
      · rw [isError_map]
        exact ih hmem

/-! Claim theorems. -/

/-- C4: the locale float converter of the TMD and LOG registries maps
`"3,14"` to `3.14` and an unparseable string like `"abc"` to NaN without
raising, while the strict numeric converter of the DAT registry raises on
the same string a conversion error annotated with the canonical field
name. -/
theorem c4_converter_nan_policy :
    german_float ("3,14".data) = Value.float (mkRat 157 50) ∧
    german_float ("abc".data) = Value.nan ∧
    List.lookup 10 TMD_FIELDS = some ("PRESS", some Converter.germanFloat) ∧
    List.lookup 18 LOG_FIELDS = some ("FIX_LON", some Converter.germanFloat) ∧
    List.lookup 2 DAT_FIELDS = some ("COND_SSPEED", some Converter.strictFloat) ∧
    applyConverter Converter.strictFloat ("abc".data) = none ∧
    parse_dat_line 2 ("abc".data) DAT_FIELDS =
      .error ⟨.convError "COND_SSPEED" ("abc".data), ["Field COND_SSPEED"]⟩ := by
  decide

/-- C10: a DAT file whose first line is empty (including a completely
empty file) does not fail: the single empty tab-cell sits at position 1,
whose registry entry `FW_REV` has no converter, so `read_dat` returns the
one-entry record mapping `FW_REV` to the empty string. -/
theorem c10_read_dat_empty_first_line (f : PyFile) (ls : List Chars)
    (h : f.utf8 = some ls) (hempty : ls.headD [] = [] ∨ ls.headD [] = ['\n']) :
    read_dat f = .ok [("FW_REV", Value.str [])] := by
  rcases hempty with he | he <;> simp only [read_dat, h, he] <;> decide

theorem c10_read_dat_empty_first_line_witness :
    read_dat ⟨some [], none, []⟩ = .ok [("FW_REV", Value.str [])] :=
  c10_read_dat_empty_first_line _ [] rfl (Or.inl rfl)

/-- C6: `read_dat` computes its record from the first line only —
appending further lines to a file leaves the result unchanged. -/
theorem c6_read_dat_first_line_only (f g : PyFile) (l : Chars) (rest : List Chars)
    (hf : f.utf8 = some (l :: rest)) (hg : g.utf8 = some [l]) :
    read_dat f = read_dat g := by
  simp only [read_dat, hf, hg, List.headD_cons]

theorem c6_read_dat_first_line_only_witness :
    read_dat ⟨some ["1.5\ta\n".data, "garbage\n".data], none, []⟩ =
      read_dat ⟨some ["1.5\ta\n".data], none, []⟩ :=
  c6_read_dat_first_line_only _ _ _ _ rfl rfl

/-- C2 counterexample: on the line `"a;1\n"` (text before the first `;`
is not an integer) the parser does fail, but the raised error carries no
note at all — in the source, `int(idx)` sits outside the `try` block that
attaches the offending-line note, so the claim that the error context
includes the offending line is false for this input. -/
theorem c2_nonnumeric_code_counterexample :
    isError (parse_tmd_line ("a;1\n".data) TMD_FIELDS) = true ∧
    notesOf (parse_tmd_line ("a;1\n".data) TMD_FIELDS) = [] := by
  decide

/-- C2 (amended): a line with no `;` fails with the unpack error whose
note carries the offending raw line; a line whose text before the first
`;` is not a base-10 integer fails with the int-parse error, but that
error carries no offending-line note. -/
theorem c2_format_error_notes (line : Chars) (fields : Registry) :
    (splitOnce ';' (rstripNl line) = none →
      parse_tmd_line line fields =
        .error ⟨.unpackError, ["Offending line: " ++ line.asString]⟩) ∧
    (∀ idx v, splitOnce ';' (rstripNl line) = some (idx, v) → pyInt idx = none →
      parse_tmd_line line fields = .error ⟨.intParseError idx, []⟩) := by
  constructor
  · intro h
    simp only [parse_tmd_line, h]
  · intro idx v hsplit hint
    simp only [parse_tmd_line, hsplit, hint]

theorem c2_format_error_notes_witness :
    parse_tmd_line ("xyz".data) TMD_FIELDS =
      .error ⟨.unpackError, ["Offending line: " ++ (("xyz".data).asString)]⟩ ∧
    parse_tmd_line ("a;1".data) TMD_FIELDS =
      .error ⟨.intParseError ("a".data), []⟩ :=
  ⟨(c2_format_error_notes ("xyz".data) TMD_FIELDS).1 (by decide),
   (c2_format_error_notes ("a;1".data) TMD_FIELDS).2 ("a".data) ("1".data)
     (by decide) (by decide)⟩

/-- C3: on a line `"<c>;<v>"` with a code string parsing to `c` and a
value with no trailing newline, the parser yields `(name, converter v)`
when the registry entry for `c` has a converter that accepts `v`, yields
`(name, v)` raw when the entry has no converter, and fails with the
lookup `KeyError` when `c` is absent from the registry, whatever the
value. -/
theorem c3_parse_line_vs_registry (fields : Registry) (code : Int) (cs v : Chars)
    (hcs : pyInt cs = some code) (hsemi : ';' ∉ cs) (hv : rstripNl v = v) :
    (∀ name, List.lookup code fields = some (name, none) →
      parse_tmd_line (cs ++ ';' :: v) fields = .ok (name, Value.str v)) ∧
    (∀ name conv w, List.lookup code fields = some (name, some conv) →
      applyConverter conv v = some w →
      parse_tmd_line (cs ++ ';' :: v) fields = .ok (name, w)) ∧
    (List.lookup code fields = none →
      parse_tmd_line (cs ++ ';' :: v) fields = .error ⟨.keyError code, []⟩) := by
  have hsplit : splitOnce ';' (rstripNl (cs ++ ';' :: v)) = some (cs, v) := by
    rw [rstripNl_append_cons, hv, splitOnce_before_first _ _ hsemi]
  refine ⟨?_, ?_, ?_⟩
  · intro name hlook
    simp only [parse_tmd_line, hsplit, hcs, hlook]
  · intro name conv w hlook hconv
    simp only [parse_tmd_line, hsplit, hcs, hlook, hconv]
  · intro hlook
    simp only [parse_tmd_line, hsplit, hcs, hlook]

theorem c3_parse_line_vs_registry_witness :
    parse_tmd_line ("1;LOKI_A".data) TMD_FIELDS =
      .ok ("DEVICE", Value.str ("LOKI_A".data)) ∧
    parse_tmd_line ("10;23,5".data) TMD_FIELDS =
      .ok ("PRESS", Value.float (mkRat 47 2)) ∧
    parse_tmd_line ("99;X".data) TMD_FIELDS = .error ⟨.keyError 99, []⟩ :=
  ⟨(c3_parse_line_vs_registry TMD_FIELDS 1 ("1".data) ("LOKI_A".data)
      (by decide) (by decide) (by decide)).1 "DEVICE" (by decide),
   (c3_parse_line_vs_registry TMD_FIELDS 10 ("10".data) ("23,5".data)
      (by decide) (by decide) (by decide)).2.1 "PRESS" Converter.germanFloat
      (Value.float (mkRat 47 2)) (by decide) (by decide),
   (c3_parse_line_vs_registry TMD_FIELDS 99 ("99".data) ("X".data)
      (by decide) (by decide) (by decide)).2.2 (by decide)⟩

/-- C5: when a file decodes cleanly but some line fails to parse (format
failure, unknown code, or a strict conversion failure), `read_tmd` raises
and returns no record at all — never a partial one built from the lines
before the failure. -/
theorem c5_no_partial_record (f : PyFile) (ls : List Chars) (l : Chars)
    (h : f.utf8 = some ls) (hmem : l ∈ ls)
    (hbad : isError (parse_tmd_line l TMD_FIELDS) = true) :
    isError (read_tmd f) = true := by
  simp only [read_tmd, h, parseAll, isError_map]
  exact mapE_isError_of_mem _ ls l hmem hbad

theorem c5_no_partial_record_witness :
    isError (read_tmd ⟨some ["1;x\n".data, "231;zz\n".data], none, []⟩) = true :=
  c5_no_partial_record _ ["1;x\n".data, "231;zz\n".data] ("231;zz\n".data)
    rfl (by decide) (by decide)

/-- A file that UTF-8 rejects but Windows-1252 accepts, with one valid
TMD/LOG line; used to separate `read_log` from `read_tmd`. -/
def c1File : PyFile := ⟨none, some ["1;x\n".data], ["windows-1252: 0.73"]⟩

/-- C1 counterexample: `read_log` does not behave like the delimited-line
read path of `read_tmd`.  On a file that only decodes as Windows-1252,
`read_tmd` retries and succeeds, while `read_log` — whose source opens the
file once with the default encoding and has no fallback — fails with the
decode error. -/
theorem c1_read_log_not_like_read_tmd :
    read_log c1File none = .error ⟨.decodeError, []⟩ ∧
    read_tmd c1File = .ok [("DEVICE", Value.str ['x'])] :=
  ⟨rfl, rfl⟩

/-- C1 (amended): `read_log` decodes with the single default encoding
only — no Windows-1252 retry and no detector-backed encoding error; on a
clean decode it parses every line exactly like the delimited-line path
(with the LOG registry), and the optional remap is applied only after the
full record is assembled; on a decode failure it fails with the raw
decode error no matter what other encodings would yield. -/
theorem c1_read_log_default_encoding (f g : PyFile) (ls : List Chars)
    (rm : List (String × String)) (hf : f.utf8 = some ls) (hg : g.utf8 = none) :
    read_log f none = parseAll LOG_FIELDS ls ∧
    read_log f (some rm) = (parseAll LOG_FIELDS ls).bind (applyRemap rm) ∧
    read_log g none = .error ⟨.decodeError, []⟩ ∧
    read_log g (some rm) = .error ⟨.decodeError, []⟩ := by
  refine ⟨?_, ?_, ?_, ?_⟩
  · simp only [read_log, hf]
    cases parseAll LOG_FIELDS ls <;> rfl
  · simp only [read_log, hf]
    cases parseAll LOG_FIELDS ls <;> rfl
  · simp only [read_log, hg]
  · simp only [read_log, hg]

theorem c1_read_log_default_encoding_witness :
    read_log ⟨some ["4;A\n".data], none, []⟩ none =
      parseAll LOG_FIELDS ["4;A\n".data] ∧
    read_log ⟨some ["4;A\n".data], none, []⟩
        (some [("acq_instrument_name", "DEVICE")]) =
      (parseAll LOG_FIELDS ["4;A\n".data]).bind
        (applyRemap [("acq_instrument_name", "DEVICE")]) ∧
    read_log ⟨none, some ["4;A\n".data], []⟩ none = .error ⟨.decodeError, []⟩ ∧
    read_log ⟨none, some ["4;A\n".data], []⟩
        (some [("acq_instrument_name", "DEVICE")]) = .error ⟨.decodeError, []⟩ :=
  c1_read_log_default_encoding ⟨some ["4;A\n".data], none, []⟩
    ⟨none, some ["4;A\n".data], []⟩ ["4;A\n".data]
    [("acq_instrument_name", "DEVICE")] rfl rfl

/-! Lemmas about `pyDict`: key uniqueness and last-write-wins. -/

lemma fst_pyDictInsert (d : Record) (k : String) (v : Value) :
    (pyDictInsert d k v).map Prod.fst =
      if d.any (fun p => p.1 == k) then d.map Prod.fst
      else d.map Prod.fst ++ [k] := by
  unfold pyDictInsert
  split
  · simp only [List.map_map]
    refine List.map_congr_left (fun p hp => ?_)
    by_cases hk : p.1 = k
    · simp [hk]
    · simp [hk]
  · simp

lemma keys_nodup_pyDictInsert (d : Record) (k : String) (v : Value)
    (h : (d.map Prod.fst).Nodup) : ((pyDictInsert d k v).map Prod.fst).Nodup := by
  rw [fst_pyDictInsert]
  split
  · exact h
  · next hany =>
    rw [List.nodup_append]
    refine ⟨h, List.nodup_singleton k, ?_⟩
    intro x hx hx2
    rw [List.mem_singleton] at hx2
    subst hx2
    rw [List.mem_map] at hx
    obtain ⟨p, hp, hfst⟩ := hx
    rw [Bool.not_eq_true, List.any_eq_false] at hany
    have := hany p hp
    rw [hfst] at this
    simp at this

lemma keys_nodup_pyDict_go (ps : List (String × Value)) (d : Record)
    (h : (d.map Prod.fst).Nodup) :
    ((ps.foldl (fun d p => pyDictInsert d p.1 p.2) d).map Prod.fst).Nodup := by
  induction ps generalizing d with
  | nil => exact h
  | cons p ps ih => exact ih _ (keys_nodup_pyDictInsert _ _ _ h)

lemma keys_nodup_pyDict (ps : List (String × Value)) :
    ((pyDict ps).map Prod.fst).Nodup :=
  keys_nodup_pyDict_go ps [] (by simp)

lemma lookup_cons_self (k : String) (v : Value) (d : Record) :
    List.lookup k ((k, v) :: d) = some v := by
  rw [List.lookup]
  simp

lemma lookup_cons_ne (k a : String) (b : Value) (d : Record) (h : k ≠ a) :
    List.lookup k ((a, b) :: d) = List.lookup k d := by
  rw [List.lookup, beq_eq_false_iff_ne.mpr h]

lemma lookup_map_update (d : Record) (k : String) (v : Value)
    (h : d.any (fun p => p.1 == k) = true) :
    List.lookup k (d.map fun p => if p.1 = k then (k, v) else p) = some v := by
  induction d with
  | nil => simp at h
  | cons p d ih =>
    obtain ⟨a, b⟩ := p
    simp only [List.any_cons, Bool.or_eq_true] at h
    simp only [List.map_cons]
    by_cases hk : a = k
    · rw [if_pos hk, lookup_cons_self]
    · have h2 := h.resolve_left (fun hb => hk (by simpa using hb))
      rw [if_neg hk, lookup_cons_ne _ _ _ _ (fun he => hk he.symm), ih h2]

lemma lookup_append_new (d : Record) (k : String) (v : Value)
    (h : d.any (fun p => p.1 == k) = false) :
    List.lookup k (d ++ [(k, v)]) = some v := by
  induction d with
  | nil => simp [lookup_cons_self]
  | cons p d ih =>
    obtain ⟨a, b⟩ := p
    simp only [List.any_cons, Bool.or_eq_false_iff] at h
    have hp : a ≠ k := by simpa using h.1
    rw [List.cons_append, lookup_cons_ne _ _ _ _ (fun he => hp he.symm), ih h.2]

lemma lookup_pyDictInsert_self (d : Record) (k : String) (v : Value) :
    List.lookup k (pyDictInsert d k v) = some v := by
  unfold pyDictInsert
  split
  · next h => exact lookup_map_update _ _ _ h
  · next h =>
    rw [Bool.not_eq_true] at h
    exact lookup_append_new _ _ _ h

lemma lookup_map_update_ne (d : Record) (k q : String) (v : Value) (h : q ≠ k) :
    List.lookup q (d.map fun p => if p.1 = k then (k, v) else p) =
      List.lookup q d := by
  induction d with
  | nil => rfl
  | cons p d ih =>
    obtain ⟨a, b⟩ := p
    simp only [List.map_cons]
    by_cases hk : a = k
    · rw [if_pos hk, lookup_cons_ne _ _ _ _ h, ih, hk, lookup_cons_ne _ _ _ _ h]
    · rw [if_neg hk]
      by_cases hq : q = a
      · subst hq
        rw [lookup_cons_self, lookup_cons_self]
      · rw [lookup_cons_ne _ _ _ _ hq, lookup_cons_ne _ _ _ _ hq, ih]

lemma lookup_append_single_ne (d : Record) (k q : String) (v : Value) (h : q ≠ k) :
    List.lookup q (d ++ [(k, v)]) = List.lookup q d := by
  induction d with
  | nil =>
    simp only [List.nil_append]
    rw [lookup_cons_ne _ _ _ _ h]
  | cons p d ih =>
    obtain ⟨a, b⟩ := p
    by_cases hq : q = a
    · subst hq
      rw [List.cons_append, lookup_cons_self, lookup_cons_self]
    · rw [List.cons_append, lookup_cons_ne _ _ _ _ hq, lookup_cons_ne _ _ _ _ hq, ih]

lemma lookup_pyDictInsert_ne (d : Record) (k q : String) (v : Value) (h : q ≠ k) :
    List.lookup q (pyDictInsert d k v) = List.lookup q d := by
  unfold pyDictInsert
  split
  · exact lookup_map_update_ne _ _ _ _ h
  · exact lookup_append_single_ne _ _ _ _ h

lemma lookup_pyDict_reverse (ps : List (String × Value)) (k : String) :
    List.lookup k (pyDict ps) = List.lookup k ps.reverse := by
  induction ps using List.reverseRecOn with
  | nil => rfl
  | append_singleton ps p ih =>
    have hfold : pyDict (ps ++ [p]) = pyDictInsert (pyDict ps) p.1 p.2 := by
      rw [pyDict, List.foldl_append, List.foldl_cons, List.foldl_nil]
      rfl
    rw [hfold, List.reverse_append, List.reverse_singleton, List.singleton_append]
    by_cases hk : k = p.1
    · subst hk
      rw [lookup_pyDictInsert_self]
      simp [List.lookup]
    · rw [lookup_pyDictInsert_ne _ _ _ _ hk]
      have hne : (k == p.1) = false := by
        rw [beq_eq_false_iff_ne]
        exact hk
      simp [List.lookup, hne, ih]

/-- C9: records produced by `read_tmd` and `read_log` carry at most one
entry per field name, and when lines repeat a name the value retained is
the one from the last occurrence in file order — looking a key up in the
built record equals looking it up in the reversed stream of parsed pairs
— and no error arises from duplication: the read succeeds whenever every
single line parses. -/
theorem c9_record_last_write_wins (f g : PyFile) (ls ls2 : List Chars)
    (ps qs : List (String × Value)) (k : String)
    (hf : f.utf8 = some ls)
    (hps : mapE (fun l => parse_tmd_line l TMD_FIELDS) ls = .ok ps)
    (hg : g.utf8 = some ls2)
    (hqs : mapE (fun l => parse_tmd_line l LOG_FIELDS) ls2 = .ok qs) :
    read_tmd f = .ok (pyDict ps) ∧
    ((pyDict ps).map Prod.fst).Nodup ∧
    List.lookup k (pyDict ps) = List.lookup k ps.reverse ∧
    read_log g none = .ok (pyDict qs) ∧
    ((pyDict qs).map Prod.fst).Nodup ∧
    List.lookup k (pyDict qs) = List.lookup k qs.reverse := by
  refine ⟨?_, keys_nodup_pyDict ps, lookup_pyDict_reverse ps k, ?_,
    keys_nodup_pyDict qs, lookup_pyDict_reverse qs k⟩
  · simp only [read_tmd, hf, parseAll, hps, Except.map]
  · simp only [read_log, hg, parseAll, hqs, Except.map]

theorem c9_record_last_write_wins_witness :
    read_tmd ⟨some ["1;A\n".data, "1;B\n".data], none, []⟩ =
      .ok (pyDict [("DEVICE", Value.str ['A']), ("DEVICE", Value.str ['B'])]) ∧
    ((pyDict [("DEVICE", Value.str ['A']), ("DEVICE", Value.str ['B'])]).map
      Prod.fst).Nodup ∧
    List.lookup "DEVICE"
        (pyDict [("DEVICE", Value.str ['A']), ("DEVICE", Value.str ['B'])]) =
      List.lookup "DEVICE"
        ([("DEVICE", Value.str ['A']), ("DEVICE", Value.str ['B'])].reverse) ∧
    read_log ⟨some ["4;A\n".data, "4;B\n".data], none, []⟩ none =
      .ok (pyDict [("DEVICE", Value.str ['A']), ("DEVICE", Value.str ['B'])]) ∧
    ((pyDict [("DEVICE", Value.str ['A']), ("DEVICE", Value.str ['B'])]).map
      Prod.fst).Nodup ∧
    List.lookup "DEVICE"
        (pyDict [("DEVICE", Value.str ['A']), ("DEVICE", Value.str ['B'])]) =
      List.lookup "DEVICE"
        ([("DEVICE", Value.str ['A']), ("DEVICE", Value.str ['B'])].reverse) :=
  c9_record_last_write_wins
    ⟨some ["1;A\n".data, "1;B\n".data], none, []⟩
    ⟨some ["4;A\n".data, "4;B\n".data], none, []⟩
    ["1;A\n".data, "1;B\n".data] ["4;A\n".data, "4;B\n".data]
    [("DEVICE", Value.str ['A']), ("DEVICE", Value.str ['B'])]
    [("DEVICE", Value.str ['A']), ("DEVICE", Value.str ['B'])]
    "DEVICE" rfl (by decide) rfl (by decide)

/-! Lemmas about the directory walk. -/

mutual
theorem roots_extend (pats : Option (List String)) (path : Path) (t : DirTree)
    (p : Path) (hp : p ∈ find_data_roots pats path t) : ∃ u, path ++ u = p := by
  match t with
  | .mk subs =>
    by_cases hig : matchesIgnore pats path = true
    · rw [find_data_roots, if_pos hig] at hp
      simp at hp
    · rw [find_data_roots, if_neg hig] at hp
      split at hp
      · rw [List.mem_singleton] at hp
        exact ⟨[], by rw [List.append_nil, hp]⟩
      · exact roots_extend_list pats path subs p hp

theorem roots_extend_list (pats : Option (List String)) (path : Path)
    (subs : List (String × DirTree)) (p : Path)
    (hp : p ∈ findRootsList pats path subs) : ∃ u, path ++ u = p := by
  match subs with
  | [] =>
    rw [findRootsList] at hp
    simp at hp
  | (n, t) :: rest =>
    rw [findRootsList, List.mem_append] at hp
    rcases hp with hp | hp
    · obtain ⟨u, hu⟩ := roots_extend pats (path ++ [n]) t p hp
      exact ⟨n :: u, by rw [← hu]; simp⟩
    · exact roots_extend_list pats path rest p hp
end

mutual
theorem no_ignored_on_yield_chain (pats : List String) (path p q : Path)
    (t : DirTree) (hp : p ∈ find_data_roots (some pats) path t)
    (hpq : ∃ u, path ++ u = q) (hqp : ∃ u, q ++ u = p) :
    pats.any (fun pat => pathMatch q pat) = false := by
  match t with
  | .mk subs =>
    by_cases hig : matchesIgnore (some pats) path = true
    · rw [find_data_roots, if_pos hig] at hp
      simp at hp
    · have hig2 : pats.any (fun pat => pathMatch path pat) = false := by
        rw [Bool.not_eq_true] at hig
        simpa [matchesIgnore] using hig
      rw [find_data_roots, if_neg hig] at hp
      split at hp
      · rw [List.mem_singleton] at hp
        subst hp
        obtain ⟨u1, hu1⟩ := hpq
        obtain ⟨u2, hu2⟩ := hqp
        subst hu1
        have hlen := congrArg List.length hu2
        simp only [List.length_append] at hlen
        have hu1nil : u1 = [] := List.length_eq_zero.mp (by omega)
        subst hu1nil
        simpa using hig2
      · exact no_ignored_on_yield_chain_list pats path p q subs hig2 hp hpq hqp

theorem no_ignored_on_yield_chain_list (pats : List String) (path p q : Path)
    (subs : List (String × DirTree))
    (hroot : pats.any (fun pat => pathMatch path pat) = false)
    (hp : p ∈ findRootsList (some pats) path subs)
    (hpq : ∃ u, path ++ u = q) (hqp : ∃ u, q ++ u = p) :
    pats.any (fun pat => pathMatch q pat) = false := by
  match subs with
  | [] =>
    rw [findRootsList] at hp
    simp at hp
  | (n, t) :: rest =>
    rw [findRootsList, List.mem_append] at hp
    rcases hp with hp | hp
    · obtain ⟨u1, hu1⟩ := hpq
      cases u1 with
      | nil =>
        rw [← hu1, List.append_nil]
        exact hroot
      | cons c u1tl =>
        obtain ⟨w, hw⟩ := roots_extend (some pats) (path ++ [n]) t p hp
        obtain ⟨u2, hu2⟩ := hqp
        have hqp2 : (path ++ c :: u1tl) ++ u2 = p := by rw [hu1]; exact hu2
        have hboth : (path ++ c :: u1tl) ++ u2 = (path ++ [n]) ++ w := by
          rw [hqp2, hw]
        simp only [List.append_assoc, List.cons_append, List.singleton_append,
          List.nil_append] at hboth
        have h2 := List.append_cancel_left hboth
        obtain ⟨hcn, -⟩ := List.cons_eq_cons.mp h2
        subst hcn
        refine no_ignored_on_yield_chain pats (path ++ [c]) p q t hp
          ⟨u1tl, ?_⟩ ⟨u2, hu2⟩
        rw [List.append_assoc, List.singleton_append]
        exact hu1
    · exact no_ignored_on_yield_chain_list pats path p q rest hroot hp hpq hqp
end

/-- C7: a directory whose immediate children include both `Pictures` and
`Telemetrie` is yielded itself, alone — `find_data_roots` does not
recurse into any of its children, even when a child contains a nested
directory that also qualifies. -/
theorem c7_deployment_root_short_circuit (pats : Option (List String)) (path : Path)
    (subs : List (String × DirTree))
    (hno : matchesIgnore pats path = false)
    (hpic : subs.any (fun p => p.1 == "Pictures") = true)
    (htel : subs.any (fun p => p.1 == "Telemetrie") = true) :
    find_data_roots pats path (.mk subs) = [path] := by
  rw [find_data_roots, if_neg (by rw [hno]; simp), if_pos (by rw [hpic, htel]; rfl)]

theorem c7_deployment_root_short_circuit_witness :
    find_data_roots none ["root"]
      (.mk [("Pictures", .mk [("nested", .mk [("Pictures", .mk []),
               ("Telemetrie", .mk [])])]),
            ("Telemetrie", .mk []),
            ("Other", .mk [])]) = [["root"]] :=
  c7_deployment_root_short_circuit none ["root"] _ rfl (by decide) (by decide)

/-- C8: no path yielded by `find_data_roots` lies at or below an ignored
directory: every directory `q` on the chain from the walk's root to a
yielded path `p` fails every ignore pattern — the walk tests the ignore
patterns before enumerating a directory and prunes the whole subtree. -/
theorem c8_ignored_subtree_yields_nothing (pats : List String) (path p q : Path)
    (t : DirTree) (hp : p ∈ find_data_roots (some pats) path t)
    (hpq : ∃ u, path ++ u = q) (hqp : ∃ u, q ++ u = p) :
    pats.any (fun pat => pathMatch q pat) = false :=
  no_ignored_on_yield_chain pats path p q t hp hpq hqp

theorem c8_ignored_subtree_yields_nothing_witness :
    ["root", "good"] ∈ find_data_roots (some ["skip*"]) ["root"]
      (.mk [("skipme", .mk [("Pictures", .mk []), ("Telemetrie", .mk [])]),
            ("good", .mk [("Pictures", .mk []), ("Telemetrie", .mk [])])]) ∧
    (["skip*"] : List String).any
      (fun pat => pathMatch ["root", "good"] pat) = false := by
  have hp : ["root", "good"] ∈ find_data_roots (some ["skip*"]) ["root"]
      (.mk [("skipme", .mk [("Pictures", .mk []), ("Telemetrie", .mk [])]),
            ("good", .mk [("Pictures", .mk []), ("Telemetrie", .mk [])])]) := by
    rw [find_data_roots]
    simp only [matchesIgnore]
    rw [if_neg (by decide), if_neg (by decide), findRootsList, findRootsList,
      findRootsList]
    rw [find_data_roots, if_pos (by decide)]
    rw [find_data_roots, if_neg (by decide), if_pos (by decide)]
    decide
  refine ⟨hp, ?_⟩
  exact c8_ignored_subtree_yields_nothing ["skip*"] ["root"] ["root", "good"]
    ["root", "good"] _ hp ⟨["good"], rfl⟩ ⟨[], by decide⟩

end Lokidata
